import Mathlib

/-!
Shallow embedding of the text-risk scorer of `AIAnalysisService`
(`analyzeText` and its private helpers) from the AI-shield repository.

Modelling conventions:
* JavaScript numbers are modelled as exact rationals (`ℚ`); `Math.round`
  is `jsRound` (floor of `x + 1/2`, the JS behaviour for the non-negative
  values arising here); `Math.min` is `min`.
* Every regex in the source is an alternation whose branches are either a
  literal or `literal.*literal`; the `AltShape` type captures exactly those
  two shapes and `countMatches` implements the JS `String.match` semantics
  with the `g` flag: scan left to right, at each position try the branches
  in order, `.*` is greedy (matches any character except a line terminator),
  and scanning resumes after the end of each match.
* The `i` flag is modelled by lowercasing the text (ASCII case folding,
  `Char.toLower`) and keeping the pattern literals lowercase.
* The only call to `Math.random()` inside `analyzeText` feeds the
  `confidence` field; it is made explicit as the `rand : ℚ` argument.
-/

/-- Dot in a JS regex without the dotall flag: any character except a line
terminator (LF, CR, LS, PS). -/
def isDotChar (c : Char) : Bool :=
  !(c == '\n' || c == '\r' || c == Char.ofNat 0x2028 || c == Char.ofNat 0x2029)

/-- One branch of an alternation in the fixed pattern table: either a plain
literal, or `a.*b` for literals `a`, `b`. -/
inductive AltShape where
  | lit (s : List Char)
  | seq (a b : List Char)
deriving DecidableEq, Repr

/-- Greedy match of `.*b` against `cs`: consume as many dot-matching
characters as possible, backtracking until the literal `b` matches; returns
the suffix after `b`. -/
def dotStarThen (b : List Char) : List Char → Option (List Char)
  | [] => if b.isEmpty then some [] else none
  | c :: cs =>
    match (if isDotChar c then dotStarThen b cs else none) with
    | some r => some r
    | none =>
      if b.isPrefixOf (c :: cs) then some (List.drop b.length (c :: cs)) else none

/-- Try one alternation branch at the current position; returns the suffix
after the matched portion. -/
def matchAlt : AltShape → List Char → Option (List Char)
  | .lit s, cs => if s.isPrefixOf cs then some (cs.drop s.length) else none
  | .seq a b, cs => if a.isPrefixOf cs then dotStarThen b (cs.drop a.length) else none

/-- Try the branches of an alternation in order at the current position. -/
def tryAlts : List AltShape → List Char → Option (List Char)
  | [], _ => none
  | alt :: rest, cs =>
    match matchAlt alt cs with
    | some r => some r
    | none => tryAlts rest cs

/-- Count the matches `text.match(re)` finds with the `g` flag: scan left to
right; after a match, resume after its end (`skip` counts the positions
still covered by the previous match; an empty match advances by one). -/
def countAux (alts : List AltShape) : List Char → Nat → Nat
  | [], _ => if (tryAlts alts []).isSome then 1 else 0
  | _ :: cs, skip + 1 => countAux alts cs skip
  | c :: cs, 0 =>
    match tryAlts alts (c :: cs) with
    | some r => 1 + countAux alts cs (cs.length - r.length)
    | none => countAux alts cs 0

/-- Number of matches of the alternation in `cs` (`(text.match(p) || []).length`). -/
def countMatches (alts : List AltShape) (cs : List Char) : Nat :=
  countAux alts cs 0

/-- One row of the `suspiciousPatterns` table. -/
structure Rule where
  alts : List AltShape
  weight : ℚ
  type : String
deriving DecidableEq, Repr

/-- The fixed `suspiciousPatterns` table of `analyzeText`. -/
def suspiciousPatterns : List Rule := [
  ⟨[.lit "urgent".data, .lit "emergency".data, .lit "immediate".data], 3/10, "urgency"⟩,
  ⟨[.lit "verify".data, .lit "confirm".data, .seq "update".data "account".data], 4/10, "verification_scam"⟩,
  ⟨[.seq "click".data "link".data, .seq "download".data "attachment".data], 5/10, "malicious_link"⟩,
  ⟨[.seq "limited".data "time".data, .seq "expires".data "soon".data, .seq "act".data "now".data], 3/10, "pressure_tactics"⟩,
  ⟨[.lit "congratulations".data, .lit "winner".data, .lit "prize".data, .lit "lottery".data], 4/10, "lottery_scam"⟩,
  ⟨[.lit "investment".data, .lit "profit".data, .seq "guaranteed".data "return".data], 4/10, "investment_fraud"⟩,
  ⟨[.lit "love".data, .lit "relationship".data, .lit "marry".data, .lit "soulmate".data], 2/10, "romance_scam"⟩,
  ⟨[.lit "bitcoin".data, .lit "cryptocurrency".data, .lit "crypto".data, .lit "wallet".data], 3/10, "crypto_scam"⟩,
  ⟨[.seq "social".data "security".data, .lit "irs".data, .lit "tax".data, .lit "government".data], 4/10, "government_impersonation"⟩,
  ⟨[.seq "tech".data "support".data, .seq "computer".data "problem".data, .seq "virus".data "detected".data], 4/10, "tech_support_scam"⟩]

/-- Matches of the regex of one rule against the (lowercased) text. -/
def countRule (r : Rule) (lcs : List Char) : Nat := countMatches r.alts lcs

/-- The source expression `type.replace(/_/g, " ")`. -/
def underscoreToSpace (s : String) : String :=
  String.map (fun c => if c = '_' then ' ' else c) s

/-- State of the `forEach` loop over `suspiciousPatterns`. -/
structure ScanState where
  totalRisk : ℚ
  detected : List String
  primaryThreatType : String
  maxWeight : ℚ
deriving Repr

/-- Body of the `forEach` loop over `suspiciousPatterns`. -/
def scanStep (lcs : List Char) (st : ScanState) (r : Rule) : ScanState :=
  let m := countRule r lcs
  if 0 < m then
    { totalRisk := st.totalRisk + r.weight * m
      detected := st.detected ++ [underscoreToSpace r.type ++ " indicators detected"]
      primaryThreatType :=
        if st.maxWeight < r.weight then underscoreToSpace r.type else st.primaryThreatType
      maxWeight := if st.maxWeight < r.weight then r.weight else st.maxWeight }
  else st

/-- Result of the pattern-matching loop on the lowercased text. -/
def scanResult (lcs : List Char) : ScanState :=
  suspiciousPatterns.foldl (scanStep lcs) ⟨0, [], "", 0⟩

/-- JS `\s` (whitespace character class). -/
def isJsWhitespace (c : Char) : Bool :=
  c == ' ' || c == '\t' || c == '\n' || c == Char.ofNat 0x0B || c == Char.ofNat 0x0C ||
  c == '\r' || c == Char.ofNat 0xA0 || c == Char.ofNat 0x1680 ||
  (0x2000 ≤ c.toNat && c.toNat ≤ 0x200A) ||
  c == Char.ofNat 0x2028 || c == Char.ofNat 0x2029 || c == Char.ofNat 0x202F ||
  c == Char.ofNat 0x205F || c == Char.ofNat 0x3000 || c == Char.ofNat 0xFEFF

/-- Word count `text.split(" ").length`: one part per space-separated segment. -/
def wordCount (text : List Char) : Nat := text.count ' ' + 1

/-- The source helper `performNLPAnalysis`: three heuristic increments, clamped at 1. -/
def performNLPAnalysis (text : List Char) : ℚ :=
  let wc : ℚ := wordCount text
  let avgWordLength : ℚ := ((text.filter (fun c => !isJsWhitespace c)).length : ℚ) / wc
  let punctFraction : ℚ := ((text.filter (fun c => c == '!' || c == '?')).length : ℚ) / wc
  let score : ℚ :=
    (if avgWordLength < 4 then 1/10 else 0) +
    (if 1/10 < punctFraction then 2/10 else 0) +
    (if wordCount text < 50 then 1/10 else 0)
  min score 1

/-- Case-insensitive-by-construction substring test (`String.includes` on the
already lowercased text). -/
def containsStr : List Char → List Char → Bool
  | [], sub => sub.isEmpty
  | c :: t, sub => sub.isPrefixOf (c :: t) || containsStr t sub

def positiveWords : List String :=
  ["great", "amazing", "wonderful", "fantastic", "excellent", "perfect"]

def negativeWords : List String :=
  ["urgent", "problem", "issue", "error", "warning", "suspended"]

def manipulativeWords : List String :=
  ["limited", "exclusive", "secret", "guaranteed", "free", "winner"]

/-- The source helper `analyzeSentiment`: keyword-presence counts and a priority cascade. -/
def analyzeSentiment (text : List Char) : String :=
  let lowerText := text.map Char.toLower
  let positiveCount := (positiveWords.filter (fun w => containsStr lowerText w.data)).length
  let negativeCount := (negativeWords.filter (fun w => containsStr lowerText w.data)).length
  let manipulativeCount := (manipulativeWords.filter (fun w => containsStr lowerText w.data)).length
  if 2 < manipulativeCount then "Highly Manipulative"
  else if positiveCount < negativeCount then "Fear-inducing"
  else if negativeCount < positiveCount then "Overly Positive"
  else "Neutral"

/-- Uppercase ASCII letter test (A through Z). -/
def isUpperAZ (c : Char) : Bool := 'A' ≤ c && c ≤ 'Z'

/-- ASCII letter test (lower or upper case). -/
def isAlphaAZ (c : Char) : Bool := isUpperAZ c || ('a' ≤ c && c ≤ 'z')

def isDigit09 (c : Char) : Bool := '0' ≤ c && c ≤ '9'

/-- JS regex word character `[A-Za-z0-9_]` (for `\b`). -/
def isWordChar (c : Char) : Bool := isAlphaAZ c || isDigit09 c || c == '_'

/-- Existence of a `/[A-Z]{3,}/` match: three consecutive uppercase letters. -/
def hasUpperRun3 : List Char → Bool
  | a :: b :: c :: rest => (isUpperAZ a && isUpperAZ b && isUpperAZ c) || hasUpperRun3 (b :: c :: rest)
  | _ => false

/-- Existence of a `/!{2,}/` match: two consecutive `!`. -/
def hasDoubleBang : List Char → Bool
  | a :: b :: rest => (a == '!' && b == '!') || hasDoubleBang (b :: rest)
  | _ => false

/-- Prefix test against a list of character classes. -/
def matchesShape : List (Char → Bool) → List Char → Bool
  | [], _ => true
  | _ :: _, [] => false
  | p :: ps, c :: cs => p c && matchesShape ps cs

/-- The credit-card regex `\d{4}-\d{4}-\d{4}-\d{4}` as a character-class shape. -/
def ccShape : List (Char → Bool) :=
  let d := isDigit09
  let dash := fun c => c == '-'
  [d, d, d, d, dash, d, d, d, d, dash, d, d, d, d, dash, d, d, d, d]

/-- Existence of a `/\d{4}-\d{4}-\d{4}-\d{4}/` match. -/
def hasCreditCardShape : List Char → Bool
  | [] => matchesShape ccShape []
  | c :: cs => matchesShape ccShape (c :: cs) || hasCreditCardShape cs

/-- The SSN regex `\d{3}-\d{2}-\d{4}` as a character-class shape. -/
def ssnShape : List (Char → Bool) :=
  let d := isDigit09
  let dash := fun c => c == '-'
  [d, d, d, dash, d, d, dash, d, d, d, d]

/-- The 11-character SSN shape matches here and the following character (if
any) is not a word character (the trailing `\b`). -/
def ssnHereWithEnd (cs : List Char) : Bool :=
  matchesShape ssnShape cs &&
    (match cs.drop 11 with
     | [] => true
     | c :: _ => !isWordChar c)

/-- Existence of a `/\b\d{3}-\d{2}-\d{4}\b/` match; `prev` is the character
before the current position (for the leading `\b`). -/
def hasSSNAux (prev : Option Char) : List Char → Bool
  | [] => false
  | c :: cs =>
    ((match prev with
      | none => true
      | some p => !isWordChar p) && ssnHereWithEnd (c :: cs)) ||
    hasSSNAux (some c) cs

def hasSSN (cs : List Char) : Bool := hasSSNAux none cs

/-- Character class `[a-zA-Z0-9._%+-]` (local part of the email regex). -/
def isEmailLocalChar (c : Char) : Bool :=
  isAlphaAZ c || isDigit09 c || c == '.' || c == '_' || c == '%' || c == '+' || c == '-'

/-- Character class `[a-zA-Z0-9.-]` (domain part of the email regex). -/
def isEmailDomainChar (c : Char) : Bool :=
  isAlphaAZ c || isDigit09 c || c == '.' || c == '-'

/-- After at least one domain character: either `.` followed by two letters
occurs here, or consume one more domain character. -/
def emailTailAfterOne : List Char → Bool
  | c :: rest =>
    (c == '.' && (match rest with
                  | a :: b :: _ => isAlphaAZ a && isAlphaAZ b
                  | _ => false)) ||
    (isEmailDomainChar c && emailTailAfterOne rest)
  | [] => false

/-- Test for `[a-zA-Z0-9.-]+\.[a-zA-Z]{2,}` starting here. -/
def emailTail : List Char → Bool
  | c :: rest => isEmailDomainChar c && emailTailAfterOne rest
  | [] => false

/-- Existence of an email-regex match: an `@` preceded by a local character
and followed by `D+ . letter letter`. -/
def hasEmailAux (prev : Option Char) : List Char → Bool
  | [] => false
  | c :: rest =>
    (c == '@' &&
      (match prev with
       | some p => isEmailLocalChar p
       | none => false) && emailTail rest) ||
    hasEmailAux (some c) rest

def hasEmail (cs : List Char) : Bool := hasEmailAux none cs

/-- The source helper `detectLinguisticPatterns`. -/
def detectLinguisticPatterns (text : List Char) : List String :=
  (if hasUpperRun3 text then ["Excessive capitalization"] else []) ++
  (if hasDoubleBang text then ["Multiple exclamation marks"] else []) ++
  (if hasCreditCardShape text then ["Credit card number pattern"] else []) ++
  (if hasSSN text then ["SSN pattern detected"] else []) ++
  (if hasEmail text then ["Email address present"] else [])

/-- The source helper `detectBehavioralIndicators`. -/
def detectBehavioralIndicators (text : List Char) : List String :=
  let l := text.map Char.toLower
  (if containsStr l "don\x27t tell anyone".data then ["Secrecy request"] else []) ++
  (if containsStr l "act now".data || containsStr l "hurry".data then ["Time pressure"] else []) ++
  (if containsStr l "verify".data || containsStr l "confirm".data then ["Information harvesting"] else []) ++
  (if containsStr l "click".data || containsStr l "download".data then ["Action request"] else [])

/-- The category-specific tip table of `generateRecommendations`. -/
def specificRecommendations (threatType : String) : List String :=
  if threatType = "romance scam" then
    ["Never send money to someone you haven\x27t met in person",
     "Be suspicious of quick declarations of love",
     "Verify photos using reverse image search"]
  else if threatType = "investment fraud" then
    ["Research investment opportunities independently",
     "Be wary of guaranteed high returns",
     "Consult with a financial advisor"]
  else if threatType = "tech support scam" then
    ["Never give remote access to your computer",
     "Contact tech support through official channels only",
     "Be suspicious of unsolicited tech support calls"]
  else []

def baseRecommendations : List String :=
  ["Do not respond to this message",
   "Verify sender identity through official channels",
   "Report this message to authorities"]

inductive RiskLevel where
  | safe | low | medium | high | critical
deriving DecidableEq, Repr

/-- Severity rank of a risk bucket (safe = 0 … critical = 4). -/
def levelRank : RiskLevel → Nat
  | .safe => 0
  | .low => 1
  | .medium => 2
  | .high => 3
  | .critical => 4

/-- The threshold ladder `getRiskLevel` of `analyzeText`. -/
def getRiskLevel (score : ℤ) : RiskLevel :=
  if 80 ≤ score then .critical
  else if 60 ≤ score then .high
  else if 40 ≤ score then .medium
  else if 20 ≤ score then .low
  else .safe

/-- The source helper `generateRecommendations`. -/
def generateRecommendations (riskLevel : RiskLevel) (threatType : String) : List String :=
  if riskLevel = RiskLevel.safe then
    ["Message appears safe, but always verify sender identity"]
  else
    baseRecommendations ++ specificRecommendations threatType

/-- JS `Math.round` for the non-negative values arising here
(`Rat.floor` is used because it is kernel-computable). -/
def jsRound (q : ℚ) : ℤ := Rat.floor (q + 1/2)

/-- The aggregation `totalRisk = Math.min(totalRisk + nlpScore * 0.2, 1)`. -/
def totalRiskOf (text : List Char) : ℚ :=
  min ((scanResult (text.map Char.toLower)).totalRisk + performNLPAnalysis text * (2/10)) 1

/-- The rounding `riskScore = Math.round(totalRisk * 100)`. -/
def riskScoreOf (text : List Char) : ℤ := jsRound (totalRiskOf text * 100)

structure TechnicalDetails where
  nlpScore : ℤ
  sentimentAnalysis : String
  linguisticPatterns : List String
  behavioralIndicators : List String
deriving DecidableEq, Repr

structure AIAnalysisResult where
  riskScore : ℤ
  riskLevel : RiskLevel
  confidence : ℚ
  detectedPatterns : List String
  threatType : Option String
  recommendations : List String
  technicalDetails : TechnicalDetails
deriving DecidableEq, Repr

/-- The embedded `analyzeText`. `rand` is the value of the one `Math.random()`
call (feeding only `confidence`). -/
def analyzeText (text : String) (rand : ℚ) : AIAnalysisResult :=
  { riskScore := riskScoreOf text.data
    riskLevel := getRiskLevel (riskScoreOf text.data)
    confidence := min (85 + rand * 15) 99
    detectedPatterns := (scanResult (text.data.map Char.toLower)).detected
    threatType :=
      if (scanResult (text.data.map Char.toLower)).primaryThreatType = "" then none
      else some (scanResult (text.data.map Char.toLower)).primaryThreatType
    recommendations :=
      generateRecommendations (getRiskLevel (riskScoreOf text.data))
        (scanResult (text.data.map Char.toLower)).primaryThreatType
    technicalDetails :=
      { nlpScore := jsRound (performNLPAnalysis text.data * 100)
        sentimentAnalysis := analyzeSentiment text.data
        linguisticPatterns := detectLinguisticPatterns text.data
        behavioralIndicators := detectBehavioralIndicators text.data } }

/-- The spec-side pattern-weight sum: `weight × matchCount` accumulated over
every rule of the fixed table. -/
def patternWeightSum (lcs : List Char) : ℚ :=
  (suspiciousPatterns.map fun r => r.weight * (countRule r lcs : ℚ)).sum

/-- The detected-pattern label a matched rule contributes. -/
def detectedLabel (r : Rule) : String :=
  underscoreToSpace r.type ++ " indicators detected"

/-- The probe phrase of the romance/crypto testable property. -/
def romancePhrase : String := "I love you, let\x27s get married, please send bitcoin"

/-- The probe phrase of the urgency/verification testable property. -/
def urgentPhrase : String := "URGENT, verify your account now!!!"

/-! ### Basic arithmetic lemmas -/

theorem jsRound_eq_floor (q : ℚ) : jsRound q = ⌊q + 1/2⌋ := by
  rw [jsRound, Rat.floor_def', Rat.floor_def]

theorem jsRound_le_jsRound {a b : ℚ} (h : a ≤ b) : jsRound a ≤ jsRound b := by
  rw [jsRound_eq_floor, jsRound_eq_floor]
  exact Int.floor_le_floor (by linarith)

theorem performNLPAnalysis_nonneg (t : List Char) : 0 ≤ performNLPAnalysis t := by
  unfold performNLPAnalysis
  refine le_min ?_ (by norm_num)
  split_ifs <;> norm_num

theorem performNLPAnalysis_le (t : List Char) : performNLPAnalysis t ≤ 2/5 := by
  unfold performNLPAnalysis
  refine le_trans (min_le_left _ _) ?_
  split_ifs <;> norm_num

theorem weights_nonneg : ∀ r ∈ suspiciousPatterns, 0 ≤ r.weight := by
  with_unfolding_all decide

theorem weights_pos : ∀ r ∈ suspiciousPatterns, 0 < r.weight := by
  with_unfolding_all decide

theorem patternWeightSum_nonneg (lcs : List Char) : 0 ≤ patternWeightSum lcs := by
  refine List.sum_nonneg ?_
  intro x hx
  obtain ⟨r, hr, rfl⟩ := List.mem_map.1 hx
  exact mul_nonneg (weights_nonneg r hr) (by positivity)

/-! ### Characterizations of the pattern-matching loop -/

theorem foldl_totalRisk (lcs : List Char) :
    ∀ (rs : List Rule) (st : ScanState),
      (rs.foldl (scanStep lcs) st).totalRisk
        = st.totalRisk + ((rs.map fun r => r.weight * (countRule r lcs : ℚ)).sum)
  | [], st => by simp
  | r :: rs, st => by
    rw [List.foldl_cons, foldl_totalRisk lcs rs]
    by_cases h : 0 < countRule r lcs
    · simp only [scanStep, h, if_true, List.map_cons, List.sum_cons]
      ring
    · have h0 : countRule r lcs = 0 := Nat.eq_zero_of_not_pos h
      simp [scanStep, h, h0]

theorem foldl_detected (lcs : List Char) :
    ∀ (rs : List Rule) (st : ScanState),
      (rs.foldl (scanStep lcs) st).detected
        = st.detected ++ (rs.filter fun r => 0 < countRule r lcs).map detectedLabel
  | [], st => by simp
  | r :: rs, st => by
    rw [List.foldl_cons, foldl_detected lcs rs]
    by_cases h : 0 < countRule r lcs
    · simp [scanStep, h, detectedLabel]
    · simp [scanStep, h]

theorem foldl_primary (lcs : List Char) :
    ∀ (rs : List Rule) (st : ScanState),
      ((rs.foldl (scanStep lcs) st).primaryThreatType = st.primaryThreatType ∧
       (rs.foldl (scanStep lcs) st).maxWeight = st.maxWeight ∧
       ∀ r ∈ rs, 0 < countRule r lcs → r.weight ≤ st.maxWeight) ∨
      (∃ l₁ rs₂ rStar, rs = l₁ ++ rStar :: rs₂ ∧ 0 < countRule rStar lcs ∧
        st.maxWeight < rStar.weight ∧
        (rs.foldl (scanStep lcs) st).primaryThreatType = underscoreToSpace rStar.type ∧
        (rs.foldl (scanStep lcs) st).maxWeight = rStar.weight ∧
        (∀ r ∈ l₁, 0 < countRule r lcs → r.weight < rStar.weight) ∧
        (∀ r ∈ rs₂, 0 < countRule r lcs → r.weight ≤ rStar.weight))
  | [], st => by simp
  | r :: rs, st => by
    rw [List.foldl_cons]
    by_cases hm : 0 < countRule r lcs
    · by_cases hw : st.maxWeight < r.weight
      · have hstep : scanStep lcs st r =
            { totalRisk := st.totalRisk + r.weight * (countRule r lcs : ℚ)
              detected := st.detected ++ [detectedLabel r]
              primaryThreatType := underscoreToSpace r.type
              maxWeight := r.weight } := by
          simp [scanStep, hm, hw, detectedLabel]
        rcases foldl_primary lcs rs (scanStep lcs st r) with ⟨h1, h2, h3⟩ |
          ⟨l₁, rs₂, rStar, heq, hm', hw', h1, h2, h4, h5⟩
        · right
          refine ⟨[], rs, r, by simp, hm, hw, ?_, ?_, by simp, ?_⟩
          · rw [h1, hstep]
          · rw [h2, hstep]
          · intro r' hr' hmr'
            have := h3 r' hr' hmr'
            rwa [hstep] at this
        · right
          have hww : r.weight < rStar.weight := by
            rw [hstep] at hw'
            exact hw'
          refine ⟨r :: l₁, rs₂, rStar, by rw [heq]; simp, hm', lt_trans hw hww,
            h1, h2, ?_, h5⟩
          intro r' hr'
          rcases List.mem_cons.1 hr' with rfl | hr'
          · exact fun _ => hww
          · exact h4 r' hr'
      · have hstep₁ : (scanStep lcs st r).primaryThreatType = st.primaryThreatType := by
          simp [scanStep, hm, hw]
        have hstep₂ : (scanStep lcs st r).maxWeight = st.maxWeight := by
          simp [scanStep, hm, hw]
        have hle : r.weight ≤ st.maxWeight := le_of_not_lt hw
        rcases foldl_primary lcs rs (scanStep lcs st r) with ⟨h1, h2, h3⟩ |
          ⟨l₁, rs₂, rStar, heq, hm', hw', h1, h2, h4, h5⟩
        · left
          refine ⟨by rw [h1, hstep₁], by rw [h2, hstep₂], ?_⟩
          intro r' hr'
          rcases List.mem_cons.1 hr' with rfl | hr'
          · exact fun _ => hle
          · intro hmr'
            have := h3 r' hr' hmr'
            rwa [hstep₂] at this
        · right
          rw [hstep₂] at hw'
          refine ⟨r :: l₁, rs₂, rStar, by rw [heq]; simp, hm', hw', h1, h2, ?_, h5⟩
          intro r' hr'
          rcases List.mem_cons.1 hr' with rfl | hr'
          · exact fun _ => lt_of_le_of_lt hle hw'
          · exact h4 r' hr'
    · have hstep : scanStep lcs st r = st := by simp [scanStep, hm]
      rw [hstep]
      rcases foldl_primary lcs rs st with ⟨h1, h2, h3⟩ |
        ⟨l₁, rs₂, rStar, heq, hm', hw', h1, h2, h4, h5⟩
      · left
        refine ⟨h1, h2, ?_⟩
        intro r' hr'
        rcases List.mem_cons.1 hr' with rfl | hr'
        · exact fun hmr' => absurd hmr' hm
        · exact h3 r' hr'
      · right
        refine ⟨r :: l₁, rs₂, rStar, by rw [heq]; simp, hm', hw', h1, h2, ?_, h5⟩
        intro r' hr'
        rcases List.mem_cons.1 hr' with rfl | hr'
        · exact fun hmr' => absurd hmr' hm
        · exact h4 r' hr'

theorem scanResult_totalRisk (lcs : List Char) :
    (scanResult lcs).totalRisk = patternWeightSum lcs := by
  rw [scanResult, foldl_totalRisk, patternWeightSum]
  norm_num

theorem scanResult_detected (lcs : List Char) :
    (scanResult lcs).detected
      = (suspiciousPatterns.filter fun r => 0 < countRule r lcs).map detectedLabel := by
  rw [scanResult, foldl_detected]
  rfl

theorem matchAlt_none_of_tryAlts_none :
    ∀ (alts : List AltShape) (cs : List Char), tryAlts alts cs = none →
      ∀ a ∈ alts, matchAlt a cs = none
  | [], _, _, a, ha => absurd ha (List.not_mem_nil a)
  | alt :: rest, cs, h, a, ha => by
    cases hma : matchAlt alt cs with
    | some r => simp [tryAlts, hma] at h
    | none =>
      simp only [tryAlts, hma] at h
      rcases List.mem_cons.1 ha with rfl | ha'
      · exact hma
      · exact matchAlt_none_of_tryAlts_none rest cs h a ha'

/-- If some branch of the alternation is a literal occurring in the text,
the global match count is positive. -/
theorem countMatches_pos_of_occurs (alts : List AltShape) (s : List Char)
    (hs : s ≠ []) (hmem : AltShape.lit s ∈ alts) :
    ∀ (cs : List Char) (i : Nat), s.isPrefixOf (cs.drop i) → 0 < countMatches alts cs
  | [], i, h => by
    rw [List.drop_nil] at h
    rw [List.isPrefixOf_iff_prefix, List.prefix_nil] at h
    exact absurd h hs
  | c :: cs, i, h => by
    rw [countMatches]
    cases htry : tryAlts alts (c :: cs) with
    | some r => simp [countAux, htry]
    | none =>
      have hnm := matchAlt_none_of_tryAlts_none alts (c :: cs) htry (.lit s) hmem
      cases i with
      | zero =>
        rw [List.drop_zero] at h
        rw [matchAlt, if_pos h] at hnm
        exact absurd hnm (by simp)
      | succ j =>
        rw [List.drop_succ_cons] at h
        have := countMatches_pos_of_occurs alts s hs hmem cs j h
        rw [countMatches] at this
        simpa [countAux, htry] using this

theorem labels_ne_empty : ∀ r ∈ suspiciousPatterns, underscoreToSpace r.type ≠ "" := by
  with_unfolding_all decide

/-- Full characterization of the dominant category the loop ends with. -/
theorem scanResult_primary_spec (lcs : List Char) :
    ((scanResult lcs).primaryThreatType = "" ∧
      ∀ r ∈ suspiciousPatterns, countRule r lcs = 0) ∨
    (∃ l₁ rs₂ rStar, suspiciousPatterns = l₁ ++ rStar :: rs₂ ∧
      0 < countRule rStar lcs ∧
      (scanResult lcs).primaryThreatType = underscoreToSpace rStar.type ∧
      (∀ r ∈ suspiciousPatterns, 0 < countRule r lcs → r.weight ≤ rStar.weight) ∧
      (∀ r ∈ l₁, 0 < countRule r lcs → r.weight < rStar.weight) ∧
      (∀ r ∈ rs₂, 0 < countRule r lcs → r.weight ≤ rStar.weight)) := by
  rcases foldl_primary lcs suspiciousPatterns ⟨0, [], "", 0⟩ with ⟨h1, _, h3⟩ |
    ⟨l₁, rs₂, rStar, heq, hm, _, h1, _, h4, h5⟩
  · left
    refine ⟨h1, fun r hr => ?_⟩
    by_contra hne
    have hpos : 0 < countRule r lcs := Nat.pos_of_ne_zero hne
    exact absurd (lt_of_lt_of_le (weights_pos r hr) (h3 r hr hpos)) (lt_irrefl 0)
  · right
    refine ⟨l₁, rs₂, rStar, heq, hm, h1, ?_, h4, h5⟩
    intro r hr hrpos
    rw [heq] at hr
    rcases List.mem_append.1 hr with hr | hr
    · exact le_of_lt (h4 r hr hrpos)
    · rcases List.mem_cons.1 hr with rfl | hr
      · exact le_refl _
      · exact h5 r hr hrpos

/-! ### Projections of `analyzeText` -/

theorem analyzeText_riskScore (t : String) (q : ℚ) :
    (analyzeText t q).riskScore = riskScoreOf t.data := rfl

theorem analyzeText_riskLevel (t : String) (q : ℚ) :
    (analyzeText t q).riskLevel = getRiskLevel (riskScoreOf t.data) := rfl

theorem analyzeText_detectedPatterns (t : String) (q : ℚ) :
    (analyzeText t q).detectedPatterns
      = (suspiciousPatterns.filter
          fun r => 0 < countRule r (t.data.map Char.toLower)).map detectedLabel := by
  rw [analyzeText, scanResult_detected]

theorem analyzeText_threatType (t : String) (q : ℚ) :
    (analyzeText t q).threatType
      = if (scanResult (t.data.map Char.toLower)).primaryThreatType = "" then none
        else some (scanResult (t.data.map Char.toLower)).primaryThreatType := rfl

theorem analyzeText_recommendations (t : String) (q : ℚ) :
    (analyzeText t q).recommendations
      = generateRecommendations (getRiskLevel (riskScoreOf t.data))
          (scanResult (t.data.map Char.toLower)).primaryThreatType := rfl

theorem analyzeText_sentiment (t : String) (q : ℚ) :
    (analyzeText t q).technicalDetails.sentimentAnalysis = analyzeSentiment t.data := rfl

/-! ### Bounds on the aggregate risk -/

theorem totalRiskOf_nonneg (t : List Char) : 0 ≤ totalRiskOf t := by
  rw [totalRiskOf, scanResult_totalRisk]
  refine le_min ?_ (by norm_num)
  have h1 := patternWeightSum_nonneg (t.map Char.toLower)
  have h2 := performNLPAnalysis_nonneg t
  nlinarith

theorem totalRiskOf_le_one (t : List Char) : totalRiskOf t ≤ 1 := min_le_right _ _

theorem jsRound_zero : jsRound 0 = 0 := by with_unfolding_all decide

theorem jsRound_hundred : jsRound 100 = 100 := by with_unfolding_all decide

theorem riskScoreOf_nonneg (t : List Char) : 0 ≤ riskScoreOf t := by
  rw [riskScoreOf, ← jsRound_zero]
  refine jsRound_le_jsRound ?_
  nlinarith [totalRiskOf_nonneg t]

theorem riskScoreOf_le_hundred (t : List Char) : riskScoreOf t ≤ 100 := by
  rw [riskScoreOf, ← jsRound_hundred]
  refine jsRound_le_jsRound ?_
  nlinarith [totalRiskOf_le_one t]

theorem getRiskLevel_mono {s₁ s₂ : ℤ} (h : s₁ ≤ s₂) :
    levelRank (getRiskLevel s₁) ≤ levelRank (getRiskLevel s₂) := by
  unfold getRiskLevel
  split_ifs <;> simp [levelRank] <;> omega

/-! ### Claim theorems -/

/-- C1: for every input, `riskScore` lies in `[0, 100]`, `riskBucket` is
obtained from `riskScore` through the fixed threshold ladder (`≥80` critical,
`≥60` high, `≥40` medium, `≥20` low, else safe, e.g. 79 → high, 80 →
critical), and that ladder is a monotone function of the score. -/
theorem riskScore_bounds_and_bucket_ladder (t : String) (q : ℚ) (s₁ s₂ : ℤ)
    (h : s₁ ≤ s₂) :
    0 ≤ (analyzeText t q).riskScore ∧ (analyzeText t q).riskScore ≤ 100 ∧
    (analyzeText t q).riskLevel = getRiskLevel (analyzeText t q).riskScore ∧
    levelRank (getRiskLevel s₁) ≤ levelRank (getRiskLevel s₂) ∧
    getRiskLevel 79 = RiskLevel.high ∧ getRiskLevel 80 = RiskLevel.critical := by
  refine ⟨?_, ?_, rfl, getRiskLevel_mono h, by decide, by decide⟩
  · rw [analyzeText_riskScore]
    exact riskScoreOf_nonneg t.data
  · rw [analyzeText_riskScore]
    exact riskScoreOf_le_hundred t.data

theorem riskScore_bounds_and_bucket_ladder_witness :
    0 ≤ (analyzeText "hello" 0).riskScore ∧ (analyzeText "hello" 0).riskScore ≤ 100 ∧
    (analyzeText "hello" 0).riskLevel = getRiskLevel (analyzeText "hello" 0).riskScore ∧
    levelRank (getRiskLevel 10) ≤ levelRank (getRiskLevel 90) ∧
    getRiskLevel 79 = RiskLevel.high ∧ getRiskLevel 80 = RiskLevel.critical :=
  riskScore_bounds_and_bucket_ladder "hello" 0 10 90 (by decide)

/-- C2: the aggregate risk is `clamp(patternWeightSum + 0.2·linguisticScore, 0, 1)`
with `riskScore = round(total·100)`, where `patternWeightSum` accumulates
`weight × matchCount` over the fixed table and the linguistic score is the sum
of the three heuristic increments clamped at 1. -/
theorem riskScore_formula (t : String) (q : ℚ) :
    (analyzeText t q).riskScore
      = jsRound (max 0 (min (patternWeightSum (t.data.map Char.toLower)
          + performNLPAnalysis t.data * (2/10)) 1) * 100) ∧
    performNLPAnalysis t.data
      = min ((if ((t.data.filter fun c => !isJsWhitespace c).length : ℚ)
                  / (wordCount t.data : ℚ) < 4 then 1/10 else 0)
           + (if 1/10 < ((t.data.filter fun c => c == '!' || c == '?').length : ℚ)
                  / (wordCount t.data : ℚ) then 2/10 else 0)
           + (if wordCount t.data < 50 then 1/10 else 0)) 1 := by
  constructor
  · rw [analyzeText_riskScore, riskScoreOf, totalRiskOf, scanResult_totalRisk]
    have h0 : (0:ℚ) ≤ min (patternWeightSum (t.data.map Char.toLower)
        + performNLPAnalysis t.data * (2/10)) 1 := by
      refine le_min ?_ (by norm_num)
      have h1 := patternWeightSum_nonneg (t.data.map Char.toLower)
      have h2 := performNLPAnalysis_nonneg t.data
      nlinarith
    rw [max_eq_right h0]
  · rfl

/-- C6: `analyzeText` is total; on the empty string the bucket is `safe`,
no patterns are detected, the threat type is undefined and the sentiment
is `Neutral` (for every value of the confidence jitter). -/
theorem analyzeText_empty_string (q : ℚ) :
    (analyzeText "" q).riskLevel = RiskLevel.safe ∧
    (analyzeText "" q).detectedPatterns = [] ∧
    (analyzeText "" q).threatType = none ∧
    (analyzeText "" q).technicalDetails.sentimentAnalysis = "Neutral" := by
  refine ⟨?_, ?_, ?_, ?_⟩ <;> with_unfolding_all rfl

/-- C8: two calls of `analyzeText` on the same text agree on `riskScore`,
`riskBucket`, `detectedPatterns` and `recommendations`; only `confidence`
depends on the random jitter. -/
theorem analyzeText_deterministic_except_confidence (t : String) (q₁ q₂ : ℚ) :
    (analyzeText t q₁).riskScore = (analyzeText t q₂).riskScore ∧
    (analyzeText t q₁).riskLevel = (analyzeText t q₂).riskLevel ∧
    (analyzeText t q₁).detectedPatterns = (analyzeText t q₂).detectedPatterns ∧
    (analyzeText t q₁).recommendations = (analyzeText t q₂).recommendations :=
  ⟨rfl, rfl, rfl, rfl⟩

theorem jsRound_eight : jsRound 8 = 8 := by with_unfolding_all decide

/-- C9: when no pattern rule matches, the linguistic increments sum to at
most `0.4`, the aggregate risk is at most `0.08`, so `riskScore ≤ 8` and the
bucket is `safe`: the linguistic signal alone never leaves the safe bucket. -/
theorem linguistic_alone_is_safe (t : String) (q : ℚ)
    (h : (analyzeText t q).detectedPatterns = []) :
    performNLPAnalysis t.data ≤ 2/5 ∧
    totalRiskOf t.data ≤ 2/25 ∧
    (analyzeText t q).riskScore ≤ 8 ∧
    (analyzeText t q).riskLevel = RiskLevel.safe := by
  rw [analyzeText_detectedPatterns, List.map_eq_nil_iff, List.filter_eq_nil_iff] at h
  have hsum : patternWeightSum (t.data.map Char.toLower) = 0 := by
    refine List.sum_eq_zero ?_
    intro x hx
    obtain ⟨r, hr, rfl⟩ := List.mem_map.1 hx
    have h0 : countRule r (t.data.map Char.toLower) = 0 := by
      have := h r hr
      simpa using this
    rw [h0]
    norm_num
  have htot : totalRiskOf t.data ≤ 2/25 := by
    rw [totalRiskOf, scanResult_totalRisk, hsum]
    refine le_trans (min_le_left _ _) ?_
    have := performNLPAnalysis_le t.data
    nlinarith
  have hscore : (analyzeText t q).riskScore ≤ 8 := by
    rw [analyzeText_riskScore, riskScoreOf, ← jsRound_eight]
    refine jsRound_le_jsRound ?_
    nlinarith
  refine ⟨performNLPAnalysis_le t.data, htot, hscore, ?_⟩
  have h0 : 0 ≤ (analyzeText t q).riskScore := by
    rw [analyzeText_riskScore]; exact riskScoreOf_nonneg t.data
  rw [analyzeText_riskLevel]
  rw [analyzeText_riskScore] at hscore h0
  unfold getRiskLevel
  split_ifs <;> first | rfl | omega

theorem linguistic_alone_is_safe_witness :
    (analyzeText "hello" 0).detectedPatterns = [] ∧
    (performNLPAnalysis "hello".data ≤ 2/5 ∧
     totalRiskOf "hello".data ≤ 2/25 ∧
     (analyzeText "hello" 0).riskScore ≤ 8 ∧
     (analyzeText "hello" 0).riskLevel = RiskLevel.safe) :=
  ⟨by with_unfolding_all rfl,
   linguistic_alone_is_safe "hello" 0 (by with_unfolding_all rfl)⟩

/-- C10: the threat type is defined exactly when at least one pattern rule
matched, i.e. when `detectedPatterns` is non-empty. -/
theorem threatType_iff_detected (t : String) (q : ℚ) :
    (analyzeText t q).threatType ≠ none ↔ (analyzeText t q).detectedPatterns ≠ [] := by
  rw [analyzeText_threatType, analyzeText_detectedPatterns]
  rcases scanResult_primary_spec (t.data.map Char.toLower) with ⟨h1, h2⟩ |
    ⟨l₁, rs₂, rStar, heq, hm, h1, _, _, _⟩
  · have hnil : (suspiciousPatterns.filter
        fun r => 0 < countRule r (t.data.map Char.toLower)).map detectedLabel
          = ([] : List String) := by
      rw [List.map_eq_nil_iff, List.filter_eq_nil_iff]
      intro r hr
      simp [h2 r hr]
    rw [h1, hnil]
    simp
  · have hmem : rStar ∈ suspiciousPatterns := by rw [heq]; simp
    have hne := labels_ne_empty rStar hmem
    rw [h1, if_neg hne]
    simp only [ne_eq, reduceCtorEq, not_false_eq_true, true_iff]
    have hfil : rStar ∈ suspiciousPatterns.filter
        fun r => 0 < countRule r (t.data.map Char.toLower) := by
      rw [List.mem_filter]
      exact ⟨hmem, by simpa using hm⟩
    exact fun hnil => (List.ne_nil_of_mem (List.mem_map_of_mem detectedLabel hfil)) hnil

/-- C7: whenever a threat type is returned, it is the (space-separated)
category of a matched rule of maximal weight, and every matched rule earlier
in table order has strictly smaller weight (ties go to the first rule). -/
theorem dominant_category_is_first_max (t : String) (q : ℚ) (ty : String)
    (h : (analyzeText t q).threatType = some ty) :
    ∃ l₁ rs₂ rStar, suspiciousPatterns = l₁ ++ rStar :: rs₂ ∧
      0 < countRule rStar (t.data.map Char.toLower) ∧
      ty = underscoreToSpace rStar.type ∧
      (∀ r ∈ suspiciousPatterns, 0 < countRule r (t.data.map Char.toLower) →
        r.weight ≤ rStar.weight) ∧
      (∀ r ∈ l₁, 0 < countRule r (t.data.map Char.toLower) → r.weight < rStar.weight) := by
  rw [analyzeText_threatType] at h
  rcases scanResult_primary_spec (t.data.map Char.toLower) with ⟨h1, _⟩ |
    ⟨l₁, rs₂, rStar, heq, hm, h1, hmax, h4, _⟩
  · rw [h1] at h
    simp at h
  · have hmem : rStar ∈ suspiciousPatterns := by rw [heq]; simp
    have hne := labels_ne_empty rStar hmem
    rw [h1, if_neg hne] at h
    exact ⟨l₁, rs₂, rStar, heq, hm, (Option.some_inj.1 h).symm, hmax, h4⟩

theorem dominant_category_is_first_max_witness :
    (analyzeText "bitcoin" 0).threatType = some "crypto scam" ∧
    (∃ l₁ rs₂ rStar, suspiciousPatterns = l₁ ++ rStar :: rs₂ ∧
      0 < countRule rStar ("bitcoin".data.map Char.toLower) ∧
      "crypto scam" = underscoreToSpace rStar.type ∧
      (∀ r ∈ suspiciousPatterns, 0 < countRule r ("bitcoin".data.map Char.toLower) →
        r.weight ≤ rStar.weight) ∧
      (∀ r ∈ l₁, 0 < countRule r ("bitcoin".data.map Char.toLower) →
        r.weight < rStar.weight)) :=
  ⟨by with_unfolding_all rfl,
   dominant_category_is_first_max "bitcoin" 0 "crypto scam" (by with_unfolding_all rfl)⟩

theorem three_distinct_le_filter_length (l : List String) (p : String → Bool)
    (w₁ w₂ w₃ : String) (h₁ : w₁ ∈ l.filter p) (h₂ : w₂ ∈ l.filter p)
    (h₃ : w₃ ∈ l.filter p) (h12 : w₁ ≠ w₂) (h13 : w₁ ≠ w₃) (h23 : w₂ ≠ w₃) :
    2 < (l.filter p).length := by
  have hcard : ({w₁, w₂, w₃} : Finset String).card = 3 := by
    rw [Finset.card_insert_of_not_mem (by simp [h12, h13]),
      Finset.card_insert_of_not_mem (by simp [h23]), Finset.card_singleton]
  have hsub : ({w₁, w₂, w₃} : Finset String) ⊆ (l.filter p).toFinset := by
    intro x hx
    simp only [Finset.mem_insert, Finset.mem_singleton] at hx
    rcases hx with rfl | rfl | rfl <;> rw [List.mem_toFinset] <;> assumption
  have := le_trans (le_trans (le_of_eq hcard.symm) (Finset.card_le_card hsub))
    (List.toFinset_card_le (l.filter p))
  omega

/-- C5: the sentiment label is the priority cascade over the keyword counts
of the three fixed word lists (a list word counts when it occurs,
case-insensitively, in the text); in particular any text containing three
distinct manipulative-list words is labelled `Highly Manipulative`
regardless of the positive and negative counts. -/
theorem sentiment_priority_cascade (t : String) (q : ℚ) :
    ((analyzeText t q).technicalDetails.sentimentAnalysis =
      (if 2 < (manipulativeWords.filter
            fun w => containsStr (t.data.map Char.toLower) w.data).length
       then "Highly Manipulative"
       else if (positiveWords.filter
              fun w => containsStr (t.data.map Char.toLower) w.data).length <
            (negativeWords.filter
              fun w => containsStr (t.data.map Char.toLower) w.data).length
       then "Fear-inducing"
       else if (negativeWords.filter
              fun w => containsStr (t.data.map Char.toLower) w.data).length <
            (positiveWords.filter
              fun w => containsStr (t.data.map Char.toLower) w.data).length
       then "Overly Positive"
       else "Neutral")) ∧
    (∀ w₁ w₂ w₃ : String, w₁ ∈ manipulativeWords → w₂ ∈ manipulativeWords →
      w₃ ∈ manipulativeWords → w₁ ≠ w₂ → w₁ ≠ w₃ → w₂ ≠ w₃ →
      containsStr (t.data.map Char.toLower) w₁.data →
      containsStr (t.data.map Char.toLower) w₂.data →
      containsStr (t.data.map Char.toLower) w₃.data →
      (analyzeText t q).technicalDetails.sentimentAnalysis = "Highly Manipulative") := by
  constructor
  · rfl
  · intro w₁ w₂ w₃ hm₁ hm₂ hm₃ h12 h13 h23 hc₁ hc₂ hc₃
    have hmc : 2 < (manipulativeWords.filter
        fun w => containsStr (t.data.map Char.toLower) w.data).length := by
      refine three_distinct_le_filter_length _ _ w₁ w₂ w₃ ?_ ?_ ?_ h12 h13 h23 <;>
        rw [List.mem_filter] <;> exact ⟨by assumption, by assumption⟩
    rw [analyzeText_sentiment]
    unfold analyzeSentiment
    rw [if_pos hmc]

theorem sentiment_priority_cascade_witness :
    ((analyzeText "great great free secret winner" 0).technicalDetails.sentimentAnalysis =
      (if 2 < (manipulativeWords.filter
            fun w => containsStr ("great great free secret winner".data.map Char.toLower)
              w.data).length
       then "Highly Manipulative"
       else if (positiveWords.filter
              fun w => containsStr ("great great free secret winner".data.map Char.toLower)
                w.data).length <
            (negativeWords.filter
              fun w => containsStr ("great great free secret winner".data.map Char.toLower)
                w.data).length
       then "Fear-inducing"
       else if (negativeWords.filter
              fun w => containsStr ("great great free secret winner".data.map Char.toLower)
                w.data).length <
            (positiveWords.filter
              fun w => containsStr ("great great free secret winner".data.map Char.toLower)
                w.data).length
       then "Overly Positive"
       else "Neutral")) ∧
    (analyzeText "great great free secret winner" 0).technicalDetails.sentimentAnalysis
      = "Highly Manipulative" :=
  ⟨(sentiment_priority_cascade "great great free secret winner" 0).1,
   (sentiment_priority_cascade "great great free secret winner" 0).2 "free" "secret" "winner"
     (by decide) (by decide) (by decide) (by decide) (by decide) (by decide)
     (by with_unfolding_all decide) (by with_unfolding_all decide)
     (by with_unfolding_all decide)⟩

theorem drop_length_add (a b : List Char) (n : ℕ) :
    (a ++ b).drop (a.length + n) = b.drop n := by
  induction a with
  | nil => simp
  | cons x xs ih =>
    rw [List.cons_append, List.length_cons]
    have h : xs.length + 1 + n = (xs.length + n) + 1 := by omega
    rw [h, List.drop_succ_cons, ih]

/-- An occurrence of a literal inside the probe phrase survives in every
superstring: if `s` is a prefix of the lowered phrase-plus-anything at
offset `k`, it is a prefix of the lowered text at offset `l.length + k`. -/
theorem occurs_superstring (ph s : List Char) (k : ℕ) (hk_le : k ≤ ph.length)
    (hk : s.isPrefixOf ((List.map Char.toLower ph).drop k))
    (t l rr : List Char) (ht : t = l ++ ph ++ rr) :
    s.isPrefixOf ((List.map Char.toLower t).drop (l.length + k)) := by
  subst ht
  rw [List.map_append, List.map_append, List.append_assoc]
  have hlen : (List.map Char.toLower l).length = l.length := by simp
  rw [show l.length + k = (List.map Char.toLower l).length + k by rw [hlen],
    drop_length_add]
  have hlen2 : k ≤ (List.map Char.toLower ph).length := by simpa using hk_le
  rw [List.drop_append_of_le_length hlen2]
  rw [List.isPrefixOf_iff_prefix] at hk ⊢
  exact hk.trans (List.prefix_append _ _)

theorem weightSum_nonneg (lcs : List Char) (rs : List Rule)
    (h : ∀ r ∈ rs, 0 ≤ r.weight) :
    0 ≤ (rs.map fun r => r.weight * (countRule r lcs : ℚ)).sum := by
  refine List.sum_nonneg ?_
  intro x hx
  obtain ⟨r, hr, rfl⟩ := List.mem_map.1 hx
  exact mul_nonneg (h r hr) (by positivity)

/-- If the urgency and verification rules both match, the weight sum is at
least `0.3 + 0.4`. -/
theorem patternWeightSum_ge_urgent_verify (lcs : List Char)
    (hU : 0 < countRule ⟨[.lit "urgent".data, .lit "emergency".data,
      .lit "immediate".data], 3/10, "urgency"⟩ lcs)
    (hV : 0 < countRule ⟨[.lit "verify".data, .lit "confirm".data,
      .seq "update".data "account".data], 4/10, "verification_scam"⟩ lcs) :
    7/10 ≤ patternWeightSum lcs := by
  have h1 : patternWeightSum lcs
      = ((suspiciousPatterns.take 2).map fun r => r.weight * (countRule r lcs : ℚ)).sum
      + ((suspiciousPatterns.drop 2).map fun r => r.weight * (countRule r lcs : ℚ)).sum := by
    rw [patternWeightSum, ← List.sum_append, ← List.map_append, List.take_append_drop]
  have h2 : 0 ≤ ((suspiciousPatterns.drop 2).map
      fun r => r.weight * (countRule r lcs : ℚ)).sum :=
    weightSum_nonneg lcs _ (fun r hr => weights_nonneg r (List.mem_of_mem_drop hr))
  have h3 : ((suspiciousPatterns.take 2).map
      fun r => r.weight * (countRule r lcs : ℚ)).sum
      = 3/10 * (countRule ⟨[.lit "urgent".data, .lit "emergency".data,
          .lit "immediate".data], 3/10, "urgency"⟩ lcs : ℚ)
      + (4/10 * (countRule ⟨[.lit "verify".data, .lit "confirm".data,
          .seq "update".data "account".data], 4/10, "verification_scam"⟩ lcs : ℚ) + 0) := rfl
  have hc1 : (1 : ℚ) ≤ (countRule ⟨[.lit "urgent".data, .lit "emergency".data,
      .lit "immediate".data], 3/10, "urgency"⟩ lcs : ℚ) := by exact_mod_cast hU
  have hc2 : (1 : ℚ) ≤ (countRule ⟨[.lit "verify".data, .lit "confirm".data,
      .seq "update".data "account".data], 4/10, "verification_scam"⟩ lcs : ℚ) := by
    exact_mod_cast hV
  rw [h1, h3]
  linarith

theorem romance_label_weight :
    ∀ r ∈ suspiciousPatterns, underscoreToSpace r.type = "romance scam" →
      r.weight = 2/10 := by
  with_unfolding_all decide

/-- Recommendations generated for any dominant category other than
`romance scam` never contain a romance-scam tip. -/
theorem no_romance_tip (lvl : RiskLevel) (p : String) (hp : p ≠ "romance scam") :
    ∀ s ∈ generateRecommendations lvl p, s ∉ specificRecommendations "romance scam" := by
  intro s hs
  rw [generateRecommendations] at hs
  split_ifs at hs with hlvl
  · simp only [List.mem_singleton] at hs
    subst hs
    decide
  · rcases List.mem_append.1 hs with hs | hs
    · simp only [baseRecommendations, List.mem_cons, List.mem_singleton,
        List.not_mem_nil, or_false] at hs
      rcases hs with rfl | rfl | rfl <;> decide
    · rw [specificRecommendations, if_neg hp] at hs
      split_ifs at hs
      · simp only [List.mem_cons, List.mem_singleton, List.not_mem_nil, or_false] at hs
        rcases hs with rfl | rfl | rfl <;> decide
      · simp only [List.mem_cons, List.mem_singleton, List.not_mem_nil, or_false] at hs
        rcases hs with rfl | rfl | rfl <;> decide
      · simp at hs

/-- C3 counterexample: on the probe phrase itself, romance_scam and
crypto_scam are detected, yet no romance-scam-specific tip is returned —
the dominant category is crypto scam (weight 0.3 > 0.2), whose tips are
absent from the lookup table. -/
theorem romance_phrase_counterexample :
    (romancePhrase.data = [] ++ romancePhrase.data ++ []) ∧
    "romance scam indicators detected" ∈ (analyzeText romancePhrase 0).detectedPatterns ∧
    "crypto scam indicators detected" ∈ (analyzeText romancePhrase 0).detectedPatterns ∧
    ∀ s ∈ (analyzeText romancePhrase 0).recommendations,
      s ∉ specificRecommendations "romance scam" := by
  refine ⟨by simp, ?_, ?_, ?_⟩ <;> with_unfolding_all decide

/-- C3 (amended): every input containing the probe phrase detects the
romance_scam and crypto_scam categories, but its recommendations never
include a romance-scam-specific tip (crypto_scam's higher weight makes the
dominant category non-romance, and tips follow the dominant category). -/
theorem romance_phrase_detection (t : String) (q : ℚ)
    (h : ∃ l r, t.data = l ++ romancePhrase.data ++ r) :
    "romance scam indicators detected" ∈ (analyzeText t q).detectedPatterns ∧
    "crypto scam indicators detected" ∈ (analyzeText t q).detectedPatterns ∧
    ∀ s ∈ (analyzeText t q).recommendations,
      s ∉ specificRecommendations "romance scam" := by
  obtain ⟨l, r, ht⟩ := h
  have hlove : ("love".data).isPrefixOf ((t.data.map Char.toLower).drop (l.length + 2)) :=
    occurs_superstring romancePhrase.data "love".data 2 (by decide)
      (by with_unfolding_all decide) t.data l r ht
  have hbit : ("bitcoin".data).isPrefixOf ((t.data.map Char.toLower).drop (l.length + 43)) :=
    occurs_superstring romancePhrase.data "bitcoin".data 43 (by decide)
      (by with_unfolding_all decide) t.data l r ht
  have hcRom : 0 < countRule ⟨[.lit "love".data, .lit "relationship".data,
      .lit "marry".data, .lit "soulmate".data], 2/10, "romance_scam"⟩
      (t.data.map Char.toLower) :=
    countMatches_pos_of_occurs _ "love".data (by decide) (by decide) _ _ hlove
  have hcCry : 0 < countRule ⟨[.lit "bitcoin".data, .lit "cryptocurrency".data,
      .lit "crypto".data, .lit "wallet".data], 3/10, "crypto_scam"⟩
      (t.data.map Char.toLower) :=
    countMatches_pos_of_occurs _ "bitcoin".data (by decide) (by decide) _ _ hbit
  have hmemRom : (⟨[.lit "love".data, .lit "relationship".data, .lit "marry".data,
      .lit "soulmate".data], 2/10, "romance_scam"⟩ : Rule) ∈ suspiciousPatterns := by
    with_unfolding_all decide
  have hmemCry : (⟨[.lit "bitcoin".data, .lit "cryptocurrency".data, .lit "crypto".data,
      .lit "wallet".data], 3/10, "crypto_scam"⟩ : Rule) ∈ suspiciousPatterns := by
    with_unfolding_all decide
  refine ⟨?_, ?_, ?_⟩
  · rw [analyzeText_detectedPatterns]
    refine List.mem_map.2 ⟨_, List.mem_filter.2 ⟨hmemRom, by simpa using hcRom⟩, ?_⟩
    with_unfolding_all rfl
  · rw [analyzeText_detectedPatterns]
    refine List.mem_map.2 ⟨_, List.mem_filter.2 ⟨hmemCry, by simpa using hcCry⟩, ?_⟩
    with_unfolding_all rfl
  · rcases scanResult_primary_spec (t.data.map Char.toLower) with ⟨_, h2⟩ |
      ⟨l₁, rs₂, rStar, heq, _, h1, hmax, _, _⟩
    · exact absurd (h2 _ hmemCry) (Nat.pos_iff_ne_zero.1 hcCry)
    · have hw : (3 : ℚ)/10 ≤ rStar.weight := hmax _ hmemCry hcCry
      have hne : underscoreToSpace rStar.type ≠ "romance scam" := by
        intro hcontra
        have h210 : rStar.weight = 2/10 :=
          romance_label_weight rStar (by rw [heq]; simp) hcontra
        rw [h210] at hw
        norm_num at hw
      rw [analyzeText_recommendations, h1]
      exact no_romance_tip _ _ hne

theorem romance_phrase_detection_witness :
    (∃ l r, romancePhrase.data = l ++ romancePhrase.data ++ r) ∧
    ("romance scam indicators detected"
        ∈ (analyzeText romancePhrase 0).detectedPatterns ∧
     "crypto scam indicators detected"
        ∈ (analyzeText romancePhrase 0).detectedPatterns ∧
     ∀ s ∈ (analyzeText romancePhrase 0).recommendations,
       s ∉ specificRecommendations "romance scam") :=
  ⟨⟨[], [], by simp⟩, romance_phrase_detection romancePhrase 0 ⟨[], [], by simp⟩⟩

/-- C4 counterexample: on the probe phrase itself, urgency and
verification_scam are detected and the bucket is high, but pressure_tactics
is NOT detected — `act.*now` needs the literal `act`, which does not occur
in `URGENT, verify your account now!!!`. -/
theorem urgent_phrase_counterexample :
    (urgentPhrase.data = [] ++ urgentPhrase.data ++ []) ∧
    "urgency indicators detected" ∈ (analyzeText urgentPhrase 0).detectedPatterns ∧
    "verification scam indicators detected"
      ∈ (analyzeText urgentPhrase 0).detectedPatterns ∧
    "pressure tactics indicators detected"
      ∉ (analyzeText urgentPhrase 0).detectedPatterns ∧
    (analyzeText urgentPhrase 0).riskLevel = RiskLevel.high := by
  refine ⟨by simp, ?_, ?_, ?_, ?_⟩ <;> with_unfolding_all decide

/-- C4 (amended): every input containing the probe phrase detects at least
the urgency and verification_scam categories (pressure_tactics is not
guaranteed) and its risk bucket is medium or higher. -/
theorem urgent_phrase_detection (t : String) (q : ℚ)
    (h : ∃ l r, t.data = l ++ urgentPhrase.data ++ r) :
    "urgency indicators detected" ∈ (analyzeText t q).detectedPatterns ∧
    "verification scam indicators detected" ∈ (analyzeText t q).detectedPatterns ∧
    levelRank RiskLevel.medium ≤ levelRank (analyzeText t q).riskLevel := by
  obtain ⟨l, r, ht⟩ := h
  have hurg : ("urgent".data).isPrefixOf ((t.data.map Char.toLower).drop (l.length + 0)) :=
    occurs_superstring urgentPhrase.data "urgent".data 0 (by decide)
      (by with_unfolding_all decide) t.data l r ht
  have hver : ("verify".data).isPrefixOf ((t.data.map Char.toLower).drop (l.length + 8)) :=
    occurs_superstring urgentPhrase.data "verify".data 8 (by decide)
      (by with_unfolding_all decide) t.data l r ht
  have hcU : 0 < countRule ⟨[.lit "urgent".data, .lit "emergency".data,
      .lit "immediate".data], 3/10, "urgency"⟩ (t.data.map Char.toLower) :=
    countMatches_pos_of_occurs _ "urgent".data (by decide) (by decide) _ _ hurg
  have hcV : 0 < countRule ⟨[.lit "verify".data, .lit "confirm".data,
      .seq "update".data "account".data], 4/10, "verification_scam"⟩
      (t.data.map Char.toLower) :=
    countMatches_pos_of_occurs _ "verify".data (by decide) (by decide) _ _ hver
  have hmemU : (⟨[.lit "urgent".data, .lit "emergency".data, .lit "immediate".data],
      3/10, "urgency"⟩ : Rule) ∈ suspiciousPatterns := by
    with_unfolding_all decide
  have hmemV : (⟨[.lit "verify".data, .lit "confirm".data,
      .seq "update".data "account".data], 4/10, "verification_scam"⟩ : Rule)
      ∈ suspiciousPatterns := by
    with_unfolding_all decide
  refine ⟨?_, ?_, ?_⟩
  · rw [analyzeText_detectedPatterns]
    refine List.mem_map.2 ⟨_, List.mem_filter.2 ⟨hmemU, by simpa using hcU⟩, ?_⟩
    with_unfolding_all rfl
  · rw [analyzeText_detectedPatterns]
    refine List.mem_map.2 ⟨_, List.mem_filter.2 ⟨hmemV, by simpa using hcV⟩, ?_⟩
    with_unfolding_all rfl
  · have hpw := patternWeightSum_ge_urgent_verify (t.data.map Char.toLower) hcU hcV
    have htot : 7/10 ≤ totalRiskOf t.data := by
      rw [totalRiskOf, scanResult_totalRisk]
      refine le_min ?_ (by norm_num)
      have := performNLPAnalysis_nonneg t.data
      nlinarith
    have h70 : jsRound 70 = 70 := by with_unfolding_all decide
    have hscore : (40 : ℤ) ≤ (analyzeText t q).riskScore := by
      rw [analyzeText_riskScore, riskScoreOf]
      have h1 : (70 : ℤ) ≤ jsRound (totalRiskOf t.data * 100) := by
        rw [← h70]
        exact jsRound_le_jsRound (by nlinarith)
      omega
    have hmed : getRiskLevel 40 = RiskLevel.medium := by decide
    calc levelRank RiskLevel.medium = levelRank (getRiskLevel 40) := by rw [hmed]
      _ ≤ levelRank (getRiskLevel (analyzeText t q).riskScore) := getRiskLevel_mono hscore
      _ = levelRank (analyzeText t q).riskLevel := rfl

theorem urgent_phrase_detection_witness :
    (∃ l r, urgentPhrase.data = l ++ urgentPhrase.data ++ r) ∧
    ("urgency indicators detected" ∈ (analyzeText urgentPhrase 0).detectedPatterns ∧
     "verification scam indicators detected"
       ∈ (analyzeText urgentPhrase 0).detectedPatterns ∧
     levelRank RiskLevel.medium ≤ levelRank (analyzeText urgentPhrase 0).riskLevel) :=
  ⟨⟨[], [], by simp⟩, urgent_phrase_detection urgentPhrase 0 ⟨[], [], by simp⟩⟩

theorem threatType_iff_detected_witness :
    (analyzeText "wallet" 0).threatType ≠ none ↔
      (analyzeText "wallet" 0).detectedPatterns ≠ [] :=
  threatType_iff_detected "wallet" 0
